import Mathlib

/-!
Shallow embedding of the 417lang interpreter and parser (Rust sources under
`src/interpreter/src` and `src/parser/src`), together with theorems settling
the specification claims.  Rust's `serde_json::Value` is modelled by `Json`,
the interpreter's reference-shared frames (`Rc<RefCell<LocalEnvironment>>`)
by an explicit store of frames addressed by `Nat` identifiers, and Rust
panics by an explicit `panicked` outcome.  All evaluation functions are
fuelled so that they are total; `timeout` marks fuel exhaustion.
-/

namespace Lang

/-- Model of `serde_json::Value` (the AST wire format).  Numbers are kept as
unbounded integers; conversion to `i64` (`as_i64`) is checked where the code
checks it. -/
inductive Json where
  | null : Json
  | bool (b : Bool) : Json
  | num (n : Int) : Json
  | str (s : String) : Json
  | arr (elems : List Json) : Json
  | obj (fields : List (String × Json)) : Json

mutual
/-- Boolean structural equality on `Json` (`PartialEq` for `serde_json::Value`). -/
def Json.beq : Json → Json → Bool
  | .null, .null => true
  | .bool a, .bool b => a == b
  | .num a, .num b => a == b
  | .str a, .str b => a == b
  | .arr a, .arr b => Json.beqList a b
  | .obj a, .obj b => Json.beqFields a b
  | _, _ => false

/-- Elementwise equality of JSON arrays. -/
def Json.beqList : List Json → List Json → Bool
  | [], [] => true
  | a :: as', b :: bs' => Json.beq a b && Json.beqList as' bs'
  | _, _ => false

/-- Fieldwise equality of JSON objects. -/
def Json.beqFields : List (String × Json) → List (String × Json) → Bool
  | [], [] => true
  | (k, v) :: as', (k', v') :: bs' => k == k' && Json.beq v v' && Json.beqFields as' bs'
  | _, _ => false
end

instance : BEq Json := ⟨Json.beq⟩

/-- Association-list lookup, modelling `serde_json::Map::get`. -/
def jget : List (String × Json) → String → Option Json
  | [], _ => none
  | (k, v) :: rest, key => if k = key then some v else jget rest key

/-- Model of `Value::get::<&str>`: key lookup on objects, `None` otherwise. -/
def Json.getKey : Json → String → Option Json
  | .obj fields, key => jget fields key
  | _, _ => none

/-- Model of `Value::as_str`. -/
def Json.asStr : Json → Option String
  | .str s => some s
  | _ => none

/-- Model of `Value::as_array`. -/
def Json.asArray : Json → Option (List Json)
  | .arr l => some l
  | _ => none

/-- Model of `Value::as_object` (the field list of an object). -/
def Json.asObject : Json → Option (List (String × Json))
  | .obj fields => some fields
  | _ => none

/-- The `i64` range check performed by `Number::as_i64`. -/
def i64Range (n : Int) : Prop := -(2 ^ 63) ≤ n ∧ n < 2 ^ 63

instance (n : Int) : Decidable (i64Range n) := by
  unfold i64Range; infer_instance

/-- Error type of the interpreter, from `src/interpreter/src/error.rs`. -/
inductive InterpError where
  | parseError (message : String)
  | argumentError (func : String) (expected got : Nat)
  | undefinedError (symbol : String)
  | typeError (expected found : String)
  | runtimeError (message : String)
deriving DecidableEq

/-- The identifiers of the built-in (`CoreFunction`) callables registered by
`LocalEnvironment::default_environment` in `src/interpreter/src/environment.rs`. -/
inductive CoreFn where
  | print | println | dbg | eq | greater | less | add | sub | mul | div | rem
  | zero | toUppercase | toLowercase | concat | contains | length | asList
  | get | set | sort
deriving DecidableEq

mutual
/-- Runtime values (`Expr` in `src/interpreter/src/interpreter.rs`). -/
inductive Expr where
  | integer (i : Int) : Expr
  | boolean (b : Bool) : Expr
  | string (s : String) : Expr
  | list (l : List Expr) : Expr
  | function (f : Func) : Expr

/-- Function values (`Function` in `src/interpreter/src/functions.rs`).
A user function stores the identifier of its captured frame; Rust's
`Rc<RefCell<LocalEnvironment>>` handle is modelled by that identifier. -/
inductive Func where
  | core (name : String) (fn : CoreFn) : Func
  | user (name : String) (args : List String) (body : Json) (env : Nat) : Func
end

mutual
/-- Structural equality of values.  Rust derives `PartialEq` for `Expr`;
for user functions the shared-frame handle is compared by identity of the
frame identifier. -/
def Expr.beq : Expr → Expr → Bool
  | .integer a, .integer b => a == b
  | .boolean a, .boolean b => a == b
  | .string a, .string b => a == b
  | .list a, .list b => Expr.beqList a b
  | .function a, .function b => Func.beq a b
  | _, _ => false

/-- Elementwise equality of value lists. -/
def Expr.beqList : List Expr → List Expr → Bool
  | [], [] => true
  | a :: as', b :: bs' => Expr.beq a b && Expr.beqList as' bs'
  | _, _ => false

/-- Equality of function values. -/
def Func.beq : Func → Func → Bool
  | .core n1 f1, .core n2 f2 => n1 == n2 && f1 == f2
  | .user n1 a1 b1 e1, .user n2 a2 b2 e2 =>
      n1 == n2 && a1 == a2 && b1 == b2 && e1 == e2
  | _, _ => false
end

instance : BEq Expr := ⟨Expr.beq⟩

mutual
/-- Display form of a value (`impl fmt::Display for Expr` in
`src/interpreter/src/interpreter.rs`).  Note the list case: the sources
join the element display forms with a comma and a space and do not add
enclosing square brackets. -/
def Expr.display : Expr → String
  | .integer i => toString i
  | .boolean b => if b then "true" else "false"
  | .string s => s
  | .list l => String.intercalate ", " (Expr.displayList l)
  | .function (.core name _) => "function: " ++ name
  | .function (.user name _ _ _) => "function: " ++ name

/-- Display forms of the elements of a list value. -/
def Expr.displayList : List Expr → List String
  | [] => []
  | e :: rest => Expr.display e :: Expr.displayList rest
end

/-- Debug form of a quoted string, approximating Rust's `{:?}` for `String`
(quotes and backslashes escaped; the exact text is immaterial to every claim). -/
def strDebug (s : String) : String :=
  "\"" ++ String.join (s.toList.map fun c =>
    if c = '"' then "\\\"" else if c = '\\' then "\\\\" else String.singleton c) ++ "\""

mutual
/-- Debug rendering of a `Json` value, modelling `serde_json::Value`'s
`Debug` output (an external library detail; the exact text is immaterial to
every claim, only that the embedding is total). -/
def Json.debugStr : Json → String
  | .null => "Null"
  | .bool b => "Bool(" ++ (if b then "true" else "false") ++ ")"
  | .num n => "Number(" ++ toString n ++ ")"
  | .str s => "String(" ++ strDebug s ++ ")"
  | .arr l => "Array [" ++ String.intercalate ", " (Json.debugStrList l) ++ "]"
  | .obj fields => "Object \x7b" ++ String.intercalate ", " (Json.debugStrFields fields) ++ "\x7d"

/-- Debug rendering of the elements of a JSON array. -/
def Json.debugStrList : List Json → List String
  | [] => []
  | v :: rest => Json.debugStr v :: Json.debugStrList rest

/-- Debug rendering of the fields of a JSON object. -/
def Json.debugStrFields : List (String × Json) → List String
  | [] => []
  | (k, v) :: rest => (strDebug k ++ ": " ++ Json.debugStr v) :: Json.debugStrFields rest
end

mutual
/-- Debug form of a value (`impl fmt::Debug for Expr`).  Rust's `{:#?}`
alternate flag does not propagate through this manual implementation, so the
pretty form coincides with this text. -/
def Expr.debugFormat : Expr → String
  | .integer i => "Integer(" ++ toString i ++ ")"
  | .boolean b => "Boolean(" ++ (if b then "true" else "false") ++ ")"
  | .string s => "String(" ++ s ++ ")"
  | .list l => "List([" ++ String.intercalate ", " (Expr.debugFormatList l) ++ "])"
  | .function f => "Function(" ++ Func.debugFormat f ++ ")"

/-- Debug forms of the elements of a list value. -/
def Expr.debugFormatList : List Expr → List String
  | [] => []
  | e :: rest => Expr.debugFormat e :: Expr.debugFormatList rest

/-- Debug form of a function value (`impl fmt::Debug for Function`). -/
def Func.debugFormat : Func → String
  | .core name _ => "CoreFunction(name: " ++ name ++ ")"
  | .user name args body _ =>
      "Function(name: " ++ name ++ ", args: [" ++
        String.intercalate ", " (args.map strDebug) ++ "], func: " ++
        Json.debugStr body ++ ")"
end

/-- Possible outcomes of one evaluation step: a value, a propagated
`InterpError`, a Rust panic (index out of bounds, `expect`, …), or fuel
exhaustion of the embedding. -/
inductive Res where
  | ok (e : Expr)
  | err (e : InterpError)
  | panicked
  | timeout

/-- Global interpreter state (`Environment` in
`src/interpreter/src/environment.rs`). -/
structure Environment where
  lexical_scope : Bool
  store_output : Bool
  output : List String

/-- Model of `Environment::add_output`. -/
def Environment.add_output (g : Environment) (s : String) : Environment :=
  { g with output := g.output ++ [s] }

/-- A single local scope (`LocalEnvironment`): a name-to-value mapping plus
an optional parent frame handle.  The Rust `Rc<RefCell<_>>` handle is a `Nat`
identifier into the interpreter's frame store. -/
structure Frame where
  vars : List (String × Expr)
  parent : Option Nat

/-- The frame heap.  Frame identifiers index this list; `Rc::clone` is
identifier copying, and mutation through any handle is visible to every
holder because all handles address the same store entry. -/
structure Store where
  frames : List Frame

/-- Insert (or overwrite) a binding, modelling `HashMap::insert`. -/
def insertVar : List (String × Expr) → String → Expr → List (String × Expr)
  | [], k, v => [(k, v)]
  | (k', v') :: rest, k, v =>
      if k' = k then (k, v) :: rest else (k', v') :: insertVar rest k v

/-- Lookup in one frame's mapping, modelling `HashMap::get`. -/
def lookupVar : List (String × Expr) → String → Option Expr
  | [], _ => none
  | (k', v') :: rest, k => if k' = k then some v' else lookupVar rest k

/-- Read a frame from the store. -/
def Store.frame? (st : Store) (fid : Nat) : Option Frame :=
  st.frames[fid]?

/-- Replace a frame in the store. -/
def Store.setFrame (st : Store) (fid : Nat) (f : Frame) : Store :=
  ⟨st.frames.set fid f⟩

/-- Allocate a fresh frame; returns its identifier. -/
def Store.alloc (st : Store) (f : Frame) : Nat × Store :=
  (st.frames.length, ⟨st.frames ++ [f]⟩)

/-- Chain walk for `LocalEnvironment::lookup`.  The interpreter only ever
creates a child frame after its parent exists, so every reachable store
satisfies `parent < fid`; the guard plus the structural gas argument
(strictly larger than `fid` at the entry point) make the recursion total
without changing the result on reachable stores. -/
def lookupNameAux (st : Store) : Nat → Nat → String → Option Expr
  | 0, _, _ => none
  | gas + 1, fid, name =>
      match st.frame? fid with
      | none => none
      | some f =>
          match lookupVar f.vars name with
          | some v => some v
          | none =>
              match f.parent with
              | none => none
              | some p => if p < fid then lookupNameAux st gas p name else none

/-- Name lookup walking the frame chain child-to-parent
(`LocalEnvironment::lookup`). -/
def Store.lookupName (st : Store) (fid : Nat) (name : String) : Option Expr :=
  lookupNameAux st (fid + 1) fid name

/-- Chain walk for `LocalEnvironment::assignment`, gas-totalised exactly as
`lookupNameAux`. -/
def assignNameAux (st : Store) : Nat → Nat → String → Expr → Except InterpError Store
  | 0, _, name, _ => .error (.undefinedError name)
  | gas + 1, fid, name, v =>
      match st.frame? fid with
      | none => .error (.undefinedError name)
      | some f =>
          match lookupVar f.vars name with
          | some _ => .ok (st.setFrame fid { f with vars := insertVar f.vars name v })
          | none =>
              match f.parent with
              | none => .error (.undefinedError name)
              | some p =>
                  if p < fid then assignNameAux st gas p name v
                  else .error (.undefinedError name)

/-- Destructive assignment walking the frame chain
(`LocalEnvironment::assignment`): mutate the first enclosing frame already
defining the name, error with `UndefinedError` otherwise. -/
def Store.assignName (st : Store) (fid : Nat) (name : String) (v : Expr) :
    Except InterpError Store :=
  assignNameAux st (fid + 1) fid name v

/-- Bind a group of pairs into a frame (`LocalEnvironment::bind`). -/
def Store.bindVars (st : Store) (fid : Nat) (pairs : List (String × Expr)) : Store :=
  match st.frame? fid with
  | none => st
  | some f =>
      st.setFrame fid
        { f with vars := pairs.foldl (fun m kv => insertVar m kv.1 kv.2) f.vars }

/-- Bundle of global state, frame store and current local frame handle
(`Interpreter` in `src/interpreter/src/interpreter.rs`). -/
structure Interpreter where
  global : Environment
  store : Store
  cur : Nat

/-- Model of `Interpreter::enter_new_local`: push a blank child of the
current frame and make it current; returns the prior handle. -/
def Interpreter.enterNewLocal (I : Interpreter) : Nat × Interpreter :=
  let (nid, st') := I.store.alloc ⟨[], some I.cur⟩
  (I.cur, { I with store := st', cur := nid })

/-- Model of `Interpreter::enter_local`: switch to a given frame handle;
returns the prior handle. -/
def Interpreter.enterLocal (I : Interpreter) (fid : Nat) : Nat × Interpreter :=
  (I.cur, { I with cur := fid })

/-- Conversion of an argument slice to integers (`exprs_into_i64`). -/
def exprsIntoI64 : List Expr → Except InterpError (List Int)
  | [] => .ok []
  | e :: rest =>
      match e with
      | .integer i =>
          match exprsIntoI64 rest with
          | .ok l => .ok (i :: l)
          | .error err => .error err
      | _ => .error (.typeError "integer" e.display)

/-- Conversion of one value to a string (`TryInto<String> for Expr`). -/
def exprIntoString : Expr → Except InterpError String
  | .string s => .ok s
  | e => .error (.typeError "string" e.display)

/-- Conversion of an argument slice to strings, first failure wins. -/
def exprsIntoStrings : List Expr → Except InterpError (List String)
  | [] => .ok []
  | e :: rest =>
      match exprIntoString e with
      | .ok s =>
          match exprsIntoStrings rest with
          | .ok l => .ok (s :: l)
          | .error err => .error err
      | .error err => .error err

/-- Result type of a built-in call: an outcome plus the (possibly mutated)
global state. -/
abbrev BRes := Res × Environment

/-- The `add` built-in: integer sum of all arguments. -/
def addFn (args : List Expr) (g : Environment) : BRes :=
  match exprsIntoI64 args with
  | .ok ints => (.ok (.integer (ints.foldl (· + ·) 0)), g)
  | .error e => (.err e, g)

/-- The `sub` built-in: fold the tail away from the first argument
(`reduce(|first, x| first - x)`, `0` when empty). -/
def subFn (args : List Expr) (g : Environment) : BRes :=
  match exprsIntoI64 args with
  | .ok [] => (.ok (.integer 0), g)
  | .ok (h :: t) => (.ok (.integer (t.foldl (· - ·) h)), g)
  | .error e => (.err e, g)

/-- The `mul` built-in: integer product. -/
def mulFn (args : List Expr) (g : Environment) : BRes :=
  match exprsIntoI64 args with
  | .ok ints => (.ok (.integer (ints.foldl (· * ·) 1)), g)
  | .error e => (.err e, g)

/-- The `div` built-in: truncated division of the first argument by the
second; a zero divisor panics in Rust. -/
def divFn (args : List Expr) (g : Environment) : BRes :=
  match exprsIntoI64 args with
  | .ok ints =>
      if h : ints.length = 2 then
        let a := ints[0]
        let b := ints[1]
        if b = 0 then (.panicked, g) else (.ok (.integer (Int.tdiv a b)), g)
      else (.err (.argumentError "div" 2 ints.length), g)
  | .error e => (.err e, g)

/-- The `rem` built-in: remainder with the sign of the dividend; a zero
divisor panics in Rust. -/
def remFn (args : List Expr) (g : Environment) : BRes :=
  match exprsIntoI64 args with
  | .ok ints =>
      if h : ints.length = 2 then
        let a := ints[0]
        let b := ints[1]
        if b = 0 then (.panicked, g) else (.ok (.integer (Int.tmod a b)), g)
      else (.err (.argumentError "rem" 2 ints.length), g)
  | .error e => (.err e, g)

/-- The `zero?` built-in: after converting the arguments to integers the
sources index `int[0]` without a length check, so an empty argument list
panics. -/
def zeroFn (args : List Expr) (g : Environment) : BRes :=
  match exprsIntoI64 args with
  | .ok [] => (.panicked, g)
  | .ok (i :: _) => (.ok (.boolean (i = 0)), g)
  | .error e => (.err e, g)

/-- The `equal?` built-in: true when all arguments equal the first, false
on an empty argument list. -/
def eqFn (args : List Expr) (g : Environment) : BRes :=
  match args with
  | [] => (.ok (.boolean false), g)
  | first :: _ => (.ok (.boolean (args.all fun a => Expr.beq a first)), g)

/-- The `greater?` built-in: strict integer comparison of two arguments. -/
def greaterFn (args : List Expr) (g : Environment) : BRes :=
  match exprsIntoI64 args with
  | .ok ints =>
      if h : ints.length = 2 then (.ok (.boolean (ints[0] > ints[1])), g)
      else (.err (.argumentError "greater?" 2 ints.length), g)
  | .error e => (.err e, g)

/-- The `less?` built-in: strict integer comparison of two arguments. -/
def lessFn (args : List Expr) (g : Environment) : BRes :=
  match exprsIntoI64 args with
  | .ok ints =>
      if h : ints.length = 2 then (.ok (.boolean (ints[0] < ints[1])), g)
      else (.err (.argumentError "less?" 2 ints.length), g)
  | .error e => (.err e, g)

/-- The `print` built-in: append each argument's display form to the
captured output when `store_output` is set (direct terminal writes are
outside the model); always evaluates to boolean `true`. -/
def printFn (args : List Expr) (g : Environment) : BRes :=
  let g' := args.foldl
    (fun g a => if g.store_output then g.add_output a.display else g) g
  (.ok (.boolean true), g')

/-- The `println` built-in: like `print` but with `"\n"` appended to every
stored chunk; always evaluates to boolean `true`. -/
def printlnFn (args : List Expr) (g : Environment) : BRes :=
  let g' := args.foldl
    (fun g a => if g.store_output then g.add_output (a.display ++ "\n") else g) g
  (.ok (.boolean true), g')

/-- The `dbg` built-in: append the debug form of each argument followed by a
newline when `store_output` is set; always evaluates to boolean `true`. -/
def dbgFn (args : List Expr) (g : Environment) : BRes :=
  let g' := args.foldl
    (fun g a => if g.store_output then g.add_output (a.debugFormat ++ "\n") else g) g
  (.ok (.boolean true), g')

/-- Character-wise upper casing, modelling `str::to_uppercase` (exact for
the ASCII inputs exercised anywhere in this development). -/
def rustUpper (s : String) : String := s.map Char.toUpper

/-- Character-wise lower casing, modelling `str::to_lowercase`. -/
def rustLower (s : String) : String := s.map Char.toLower

/-- The `to_uppercase` built-in: with more than one argument, a list of the
upper-cased strings; otherwise the sources index `args[0]` directly, so an
empty argument list panics. -/
def toUppercaseFn (args : List Expr) (g : Environment) : BRes :=
  if args.length > 1 then
    match exprsIntoStrings args with
    | .ok strs => (.ok (.list (strs.map fun s => .string (rustUpper s))), g)
    | .error e => (.err e, g)
  else
    match args with
    | [] => (.panicked, g)
    | a :: _ =>
        match exprIntoString a with
        | .ok s => (.ok (.string (rustUpper s)), g)
        | .error e => (.err e, g)

/-- The `to_lowercase` built-in, mirror image of `to_uppercase`. -/
def toLowercaseFn (args : List Expr) (g : Environment) : BRes :=
  if args.length > 1 then
    match exprsIntoStrings args with
    | .ok strs => (.ok (.list (strs.map fun s => .string (rustLower s))), g)
    | .error e => (.err e, g)
  else
    match args with
    | [] => (.panicked, g)
    | a :: _ =>
        match exprIntoString a with
        | .ok s => (.ok (.string (rustLower s)), g)
        | .error e => (.err e, g)

/-- The `concat` built-in: concatenate all string arguments. -/
def concatFn (args : List Expr) (g : Environment) : BRes :=
  match exprsIntoStrings args with
  | .ok strs => (.ok (.string (String.join strs)), g)
  | .error e => (.err e, g)

/-- Character-list prefix test (used to model `str::contains`). -/
def lcStarts : List Char → List Char → Bool
  | _, [] => true
  | [], _ :: _ => false
  | h :: t, n :: m => h = n && lcStarts t m

/-- Character-list substring test, modelling `str::contains`. -/
def lcContains : List Char → List Char → Bool
  | hay, needle =>
      if lcStarts hay needle then true
      else match hay with
        | [] => false
        | _ :: t => lcContains t needle

/-- Substring test on strings. -/
def strContains (hay needle : String) : Bool :=
  lcContains hay.toList needle.toList

/-- The `contains` built-in: true when every argument after the first
contains the first as a substring; fewer than two arguments yield the
(hard-coded) argument error `expected 2, got 0`. -/
def containsFn (args : List Expr) (g : Environment) : BRes :=
  match exprsIntoStrings args with
  | .ok strs =>
      match strs with
      | [] => (.err (.argumentError "contains" 2 0), g)
      | [_] => (.err (.argumentError "contains" 2 0), g)
      | first :: rest =>
          (.ok (.boolean (! rest.any fun ele => ! strContains ele first)), g)
  | .error e => (.err e, g)

/-- The `as_list` built-in: package the arguments as a list value. -/
def asListFn (args : List Expr) (g : Environment) : BRes :=
  (.ok (.list args), g)

/-- The `get` built-in: element of a list at an index; an out-of-bounds
index (after Rust's `as usize` cast) panics. -/
def getFn (args : List Expr) (g : Environment) : BRes :=
  if args.length ≠ 2 then (.err (.argumentError "get" 2 args.length), g)
  else
    match args with
    | [a0, a1] =>
        match a1 with
        | .integer idx =>
            match a0 with
            | .list l =>
                if h : 0 ≤ idx ∧ idx.toNat < l.length then
                  (.ok (l.get ⟨idx.toNat, h.2⟩), g)
                else (.panicked, g)
            | _ => (.err (.typeError "list" a0.display), g)
        | _ => (.err (.typeError "integer" a1.display), g)
    | _ => (.panicked, g)

/-- The `set` built-in as written in the sources: the arity guard tests
`args.len() != 2` although the documented contract takes three arguments
(list, index, new element); a call that passes the guard therefore has
exactly two arguments, and the unchecked access `args[2]` panics. -/
def setFn (args : List Expr) (g : Environment) : BRes :=
  if args.length ≠ 2 then (.err (.argumentError "set" 3 args.length), g)
  else
    match args with
    | [a0, a1] =>
        match a1 with
        | .integer _ =>
            match a0 with
            | .list _ => (.panicked, g)
            | _ => (.err (.typeError "list" a0.display), g)
        | _ => (.err (.typeError "integer" a1.display), g)
    | _ => (.panicked, g)

/-- The `length` built-in: byte length of a string or element count of a
list; the sources index `args[0]` without a length check, so an empty
argument list panics. -/
def lengthFn (args : List Expr) (g : Environment) : BRes :=
  match args with
  | [] => (.panicked, g)
  | a :: _ =>
      match a with
      | .string s => (.ok (.integer s.utf8ByteSize), g)
      | .list l => (.ok (.integer l.length), g)
      | _ => (.err (.typeError "string or list" a.display), g)

/-- Modelled from the spec: the `sort` built-in is registered by
`default_environment` but its definition is absent from the sources under
`src/`; per the spec table it takes one argument and returns the list
sorted ascending (comparable-by-value elements only, modelled here as
integer lists). -/
def sortFn (args : List Expr) (g : Environment) : BRes :=
  if h : args.length = 1 then
    match args[0] with
    | .list l =>
        match exprsIntoI64 l with
        | .ok ints => (.ok (.list ((ints.mergeSort (· ≤ ·)).map Expr.integer)), g)
        | .error e => (.err e, g)
    | a => (.err (.typeError "list" a.display), g)
  else (.err (.argumentError "sort" 1 args.length), g)

/-- Dispatch a built-in by identifier. -/
def callCore : CoreFn → List Expr → Environment → BRes
  | .print => printFn
  | .println => printlnFn
  | .dbg => dbgFn
  | .eq => eqFn
  | .greater => greaterFn
  | .less => lessFn
  | .add => addFn
  | .sub => subFn
  | .mul => mulFn
  | .div => divFn
  | .rem => remFn
  | .zero => zeroFn
  | .toUppercase => toUppercaseFn
  | .toLowercase => toLowercaseFn
  | .concat => concatFn
  | .contains => containsFn
  | .length => lengthFn
  | .asList => asListFn
  | .get => getFn
  | .set => setFn
  | .sort => sortFn

/-- The default (root) frame, from
`LocalEnvironment::default_environment`: the built-ins plus the constants
`x`, `v`, `i`, `true`, `false`. -/
def defaultFrame : Frame :=
  { parent := none
    vars :=
      [ ("print", .function (.core "print" .print))
      , ("println", .function (.core "println" .println))
      , ("dbg", .function (.core "dbg" .dbg))
      , ("equal?", .function (.core "equal?" .eq))
      , ("greater?", .function (.core "greater?" .greater))
      , ("less?", .function (.core "less?" .less))
      , ("add", .function (.core "add" .add))
      , ("sub", .function (.core "sub" .sub))
      , ("mul", .function (.core "mul" .mul))
      , ("div", .function (.core "div" .div))
      , ("rem", .function (.core "rem" .rem))
      , ("zero?", .function (.core "zero?" .zero))
      , ("to_uppercase", .function (.core "to_uppercase" .toUppercase))
      , ("to_lowercase", .function (.core "to_lowercase" .toLowercase))
      , ("concat", .function (.core "concat" .concat))
      , ("contains", .function (.core "contains" .contains))
      , ("length", .function (.core "length" .length))
      , ("as_list", .function (.core "as_list" .asList))
      , ("get", .function (.core "get" .get))
      , ("set", .function (.core "set" .set))
      , ("sort", .function (.core "sort" .sort))
      , ("x", .integer 10)
      , ("v", .integer 5)
      , ("i", .integer 1)
      , ("true", .boolean true)
      , ("false", .boolean false)
      ] }

/-- Model of `Interpreter::new`. -/
def Interpreter.new (lexical_scope store_output : Bool) : Interpreter :=
  { global := ⟨lexical_scope, store_output, []⟩
    store := ⟨[defaultFrame]⟩
    cur := 0 }

/-- Result of evaluating a JSON array elementwise. -/
inductive ResL where
  | ok (es : List Expr)
  | err (e : InterpError)
  | panicked
  | timeout

/-- Parameter-name extraction in `parse_anonymous_function`: every
parameter must be an object carrying an `Identifier` string. -/
def paramNames : List Json → Except InterpError (List String)
  | [] => .ok []
  | p :: rest =>
      match (p.getKey "Identifier").bind Json.asStr with
      | some s =>
          match paramNames rest with
          | .ok l => .ok (s :: l)
          | .error e => .error e
      | none => .error (.parseError "All parameters must be an identifier.")

/-- Model of `parse_anonymous_function` (`src/interpreter/src/functions.rs`):
build a user function value without evaluating its body.  The captured
environment is a fresh blank child of the current frame
(`LocalEnvironment::from_parent(interpreter.local.clone())`). -/
def parseAnonymousFunction (val : Json) (name : Option String) (I : Interpreter) :
    Res × Interpreter :=
  match val.asArray with
  | some [parameters, block] =>
      match (parameters.asObject.bind fun o => jget o "Parameters").bind Json.asArray with
      | none => (.err (.parseError "Parameters list is missing."), I)
      | some plist =>
          match paramNames plist with
          | .error e => (.err e, I)
          | .ok names =>
              match block.asObject.bind fun o => jget o "Block" with
              | none => (.err (.parseError "Function should contain a block."), I)
              | some blk =>
                  let localName := name.getD "Anonymous"
                  let (nid, st') := I.store.alloc ⟨[], some I.cur⟩
                  (.ok (.function (.user localName names blk nid)),
                   { I with store := st' })
  | _ => (.err (.parseError "Function should have an associated parameters list and block."), I)

mutual

/-- Model of `Expr::eval` (`src/interpreter/src/interpreter.rs`): evaluate a
JSON AST node.  `fuel` bounds the recursion depth of the embedding (every
mutual call consumes one unit, keeping the recursion structural); `timeout`
marks fuel exhaustion and never arises for sufficient fuel. -/
def evalJson : Nat → Json → Interpreter → Res × Interpreter
  | 0, _, I => (.timeout, I)
  | fuel + 1, v, I =>
    match v with
    | .num n =>
        if i64Range n then (.ok (.integer n), I)
        else (.err (.typeError "i64" (toString n)), I)
    | .bool b => (.ok (.boolean b), I)
    | .str s => (.ok (.string s), I)
    | .arr elems =>
        match evalJsonList fuel elems I with
        | (.ok es, I') => (.ok (.list es), I')
        | (.err e, I') => (.err e, I')
        | (.panicked, I') => (.panicked, I')
        | (.timeout, I') => (.timeout, I')
    | .obj fields => interpretObject fuel fields I
    | .null =>
        (.err (.parseError ("null is not an implemented type! It is of JSON type Null")), I)

/-- Elementwise evaluation of a JSON array, left to right, first failure
wins (the `Value::Array` arm of `Expr::eval`). -/
def evalJsonList : Nat → List Json → Interpreter → ResL × Interpreter
  | 0, _, I => (.timeout, I)
  | fuel + 1, vs, I =>
      match vs with
      | [] => (.ok [], I)
      | v :: rest =>
          match evalJson fuel v I with
          | (.ok e, I') =>
              match evalJsonList fuel rest I' with
              | (.ok es, I'') => (.ok (e :: es), I'')
              | other => other
          | (.err e, I') => (.err e, I')
          | (.panicked, I') => (.panicked, I')
          | (.timeout, I') => (.timeout, I')

/-- Model of `interpret_object`: dispatch on the distinguished keys in the
order the sources test them. -/
def interpretObject : Nat → List (String × Json) → Interpreter → Res × Interpreter
  | 0, _, I => (.timeout, I)
  | fuel + 1, fields, I =>
    match (jget fields "Identifier").bind Json.asStr with
    | some binding =>
        match I.store.lookupName I.cur binding with
        | some e => (.ok e, I)
        | none => (.err (.undefinedError binding), I)
    | none =>
    match jget fields "Block" with
    | some key => interpretBlock fuel key I
    | none =>
    match jget fields "Lambda" with
    | some lambda => parseAnonymousFunction lambda none I
    | none =>
    match jget fields "Application" with
    | some arr => functionApplication fuel arr I
    | none =>
    match jget fields "Cond" with
    | some condv =>
        match condv with
        | .arr statements => interpretCond fuel statements I
        | _ => (.ok (.boolean false), I)
    | none =>
    match jget fields "Let" with
    | some arr => interpretLet fuel arr I
    | none =>
    match jget fields "Def" with
    | some arr => interpretDef fuel arr I
    | none =>
    match jget fields "Assignment" with
    | some arr => interpretAssignment fuel arr I
    | none =>
        (.err (.parseError ("Found JSON Object in AST but it does not contain a known keyword: \x7b" ++
          String.intercalate ", " (Json.debugStrFields fields) ++ "\x7d")), I)

/-- Model of the `Cond` clause loop in `interpret_object`: clauses are
tested in source order; a missing `Clause` key panics (`expect`); a clause
value that is not an array is skipped; a two-element clause evaluates its
condition, which must be boolean; the first true condition's expression is
evaluated and returned; an exhausted loop yields boolean `false`. -/
def interpretCond : Nat → List Json → Interpreter → Res × Interpreter
  | 0, _, I => (.timeout, I)
  | fuel + 1, sts, I =>
      match sts with
      | [] => (.ok (.boolean false), I)
      | st :: rest =>
          match st.getKey "Clause" with
          | none => (.panicked, I)
          | some cl =>
              match cl with
              | .arr [condition, expr] =>
                  match evalJson fuel condition I with
                  | (.ok (.boolean true), I') => evalJson fuel expr I'
                  | (.ok (.boolean false), I') => interpretCond fuel rest I'
                  | (.ok v, I') => (.err (.typeError "bool" v.display), I')
                  | (r, I') => (r, I')
              | .arr _ =>
                  (.err (.parseError "Clause did not contain both a condition and expression."), I)
              | _ => interpretCond fuel rest I

/-- Model of `interpret_block`: enter a blank child frame, evaluate the
block contents, take the last value (or `false` when empty).  Note the
source's `Expr::eval(&val, interpreter)?`: on an error the `?` operator
returns from `interpret_block` before `interpreter.local = old_local`
runs, so the frame handle is restored only on the non-error paths. -/
def interpretBlock : Nat → Json → Interpreter → Res × Interpreter
  | 0, _, I => (.timeout, I)
  | fuel + 1, v, I =>
    let (oldLocal, I1) := I.enterNewLocal
    match evalJson fuel v I1 with
    | (.ok (.list l), I2) =>
        (.ok (l.getLast?.getD (.boolean false)), { I2 with cur := oldLocal })
    | (.ok _, I2) =>
        (.err (.parseError "Expected expressions within block."), { I2 with cur := oldLocal })
    | (r, I2) => (r, I2)

/-- Model of `interpret_block_with_bindings`: as `interpret_block`, binding
the given pairs into the fresh frame first; the same `?` shortcut skips the
restore on the error path. -/
def interpretBlockWithBindings :
    Nat → Json → List (String × Expr) → Interpreter → Res × Interpreter
  | 0, _, _, I => (.timeout, I)
  | fuel + 1, v, bindings, I =>
    let (oldLocal, I1) := I.enterNewLocal
    let I1b := { I1 with store := I1.store.bindVars I1.cur bindings }
    match evalJson fuel v I1b with
    | (.ok (.list l), I2) =>
        (.ok (l.getLast?.getD (.boolean false)), { I2 with cur := oldLocal })
    | (.ok _, I2) =>
        (.err (.parseError "Expected expressions within block."), { I2 with cur := oldLocal })
    | (r, I2) => (r, I2)

/-- Model of `interpret_let`: evaluate the right-hand side, then bind the
name inside a fresh child frame which stays current. -/
def interpretLet : Nat → Json → Interpreter → Res × Interpreter
  | 0, _, I => (.timeout, I)
  | fuel + 1, val, I =>
    match val.asArray with
    | some [identifier, value] =>
        match (identifier.getKey "Identifier").bind Json.asStr with
        | none => (.err (.parseError "Expecting an identifier in let expression"), I)
        | some name =>
            match evalJson fuel value I with
            | (.ok v, I') =>
                let (_, I'') := I'.enterNewLocal
                (.ok v, { I'' with store := I''.store.bindVars I''.cur [(name, v)] })
            | (r, I') => (r, I')
    | _ => (.err (.parseError "let expression expectes an identifier and a value to be bound."), I)

/-- Model of `interpret_def`: evaluate the right-hand side and bind the
name into the current frame. -/
def interpretDef : Nat → Json → Interpreter → Res × Interpreter
  | 0, _, I => (.timeout, I)
  | fuel + 1, val, I =>
    match val.asArray with
    | some [identifier, value] =>
        match (identifier.getKey "Identifier").bind Json.asStr with
        | none => (.err (.parseError "Expecting an identifier in def expression"), I)
        | some name =>
            match evalJson fuel value I with
            | (.ok v, I') =>
                (.ok v, { I' with store := I'.store.bindVars I'.cur [(name, v)] })
            | (r, I') => (r, I')
    | _ => (.err (.parseError "def expression expectes an identifier and a value to be bound."), I)

/-- Model of `interpret_assignment`: evaluate the right-hand side and
mutate the first enclosing frame that defines the name. -/
def interpretAssignment : Nat → Json → Interpreter → Res × Interpreter
  | 0, _, I => (.timeout, I)
  | fuel + 1, val, I =>
    match val.asArray with
    | some [identifier, value] =>
        match (identifier.getKey "Identifier").bind Json.asStr with
        | none => (.err (.parseError "Expecting an identifier in assignment expression"), I)
        | some name =>
            match evalJson fuel value I with
            | (.ok v, I') =>
                match I'.store.assignName I'.cur name v with
                | .ok st' => (.ok v, { I' with store := st' })
                | .error e => (.err e, I')
            | (r, I') => (r, I')
    | _ => (.err (.parseError "Assignment expression expectes an identifier and a value to be bound."), I)

/-- Model of `function_application` (`src/interpreter/src/functions.rs`):
evaluate the application array (head and arguments left to right), require
a function head, dispatch built-ins to the global state, and run user
functions in a child of their captured frame (lexical scope) or of the
caller's frame (dynamic scope).  In the lexical branch the caller's frame
handle is restored on both the success and the error path. -/
def functionApplication : Nat → Json → Interpreter → Res × Interpreter
  | 0, _, I => (.timeout, I)
  | fuel + 1, val, I =>
    match evalJson fuel val I with
    | (.ok (.list l), I') =>
        match l with
        | [] => (.err (.parseError "Function application on nothing."), I')
        | first :: rest =>
            match first with
            | .function (.core _ fn) =>
                let (r, g') := callCore fn rest I'.global
                (r, { I' with global := g' })
            | .function (.user name params body envId) =>
                if params.length ≠ rest.length then
                  (.err (.argumentError name params.length rest.length), I')
                else if I'.global.lexical_scope then
                  let (saved, I1) := I'.enterLocal envId
                  match interpretBlockWithBindings fuel body (params.zip rest) I1 with
                  | (r, I2) => (r, { I2 with cur := saved })
                else
                  interpretBlockWithBindings fuel body (params.zip rest) I'
            | _ => (.err (.typeError "function" first.display), I')
    | (.ok _, I') => (.err (.parseError "Expected function and arguments."), I')
    | (r, I') => (r, I')

end

/-- Keywords recognised by the lexer (`Keyword` in `src/parser/src/lexer.rs`). -/
inductive Keyword where
  | lambdaK | letK | defK | condK
deriving DecidableEq

/-- Tokens (`Token` in `src/parser/src/lexer.rs`).  The `equals` variant is
modelled from the spec: `parser.rs` references a `Token::Equals` punctuation
variant (the spec says "`=` alone is punctuation") that is absent from the
`Token` enum in `lexer.rs`; the lexer as written never emits it. -/
inductive Token where
  | identifier (s : String)
  | string (s : String)
  | keyword (k : Keyword)
  | integer (n : Int)
  | openParen | closeParen | openBrace | closeBrace | comma | semicolon
  | arrow | eof | error
  | equals
deriving DecidableEq

/-- A token together with the recorded source offset
(`TokenContainer` in `src/parser/src/lexer.rs`). -/
structure TokenC where
  token : Token
  source : Nat
deriving DecidableEq

/-- Lexer state: the remaining characters (`Peekable<Chars>`) and the
running `current_location` counter, which the sources advance by one per
`next_char` call, plus the recorded lexical-error spans. -/
structure LexState where
  rest : List Char
  currentLocation : Nat
  errors : List (Nat × Nat)
deriving DecidableEq

/-- Model of `Lexer::new`. -/
def lexInit (src : String) : LexState := ⟨src.toList, 0, []⟩

/-- Model of `Lexer::next_char`: drop one character and advance the
location counter (a `Chars` iterator at its end simply stays empty). -/
def nextChar (s : LexState) : LexState :=
  { s with rest := s.rest.tail, currentLocation := s.currentLocation + 1 }

/-- Model of `Lexer::peek_char`. -/
def peekChar (s : LexState) : Option Char := s.rest.head?

/-- Delimiter characters (`is_delimiter`). -/
def isDelimiter (c : Char) : Bool :=
  c = ' ' || c = '\t' || c = '\n' || c = '"' || c = '(' || c = ')' ||
  c = '\x7b' || c = '\x7d' || c = ',' || c = ';'

/-- Identifier-continuation characters (`is_id_char`): anything that is
neither whitespace nor a delimiter. -/
def isIdChar (c : Char) : Bool := !(c.isWhitespace || isDelimiter c)

/-- Identifier-start characters (`is_id_start`): an identifier character
that is not a digit, `+` or `-`. -/
def isIdStart (c : Char) : Bool :=
  isIdChar c && !(c.isDigit || c = '+' || c = '-')

mutual
/-- Model of `skip_whitespace_and_comments`.  Note the comment test in the
sources compares `peek_char` with `'/'` twice (the same character), and the
inner comment loop advances until a `'\n'` is seen with no end-of-input
check; `none` records that the loop did not finish within the given fuel. -/
def skipWC : Nat → LexState → Option LexState
  | 0, _ => none
  | fuel + 1, s =>
      match peekChar s with
      | none => some s
      | some c =>
          if c.isWhitespace then skipWC fuel (nextChar s)
          else if c = '/' && peekChar s = some '/' then skipLineThen fuel s
          else some s

/-- The inner comment loop of `skip_whitespace_and_comments`
(`while self.peek_char() != Some('\n')`), returning to the outer loop when
a newline is reached. -/
def skipLineThen : Nat → LexState → Option LexState
  | 0, _ => none
  | fuel + 1, s =>
      if peekChar s = some '\n' then skipWC fuel s
      else skipLineThen fuel (nextChar s)
end

/-- Outcome of lexing one token: the token and successor state, a Rust
panic, or fuel exhaustion of the embedding. -/
inductive LexOut where
  | tok (t : Token) (s : LexState)
  | panicked
  | fuelOut
deriving DecidableEq

/-- The string-body loop of `lex_string`: ends at a closing quote or at end
of input; recognises the five escapes and panics on any other escape. -/
def lexStringLoop : Nat → LexState → List Char → LexOut
  | 0, _, _ => .fuelOut
  | fuel + 1, s, acc =>
      match peekChar s with
      | none => .tok (.string (String.mk acc)) s
      | some '"' => .tok (.string (String.mk acc)) (nextChar s)
      | some '\\' =>
          let s1 := nextChar s
          match peekChar s1 with
          | none => .tok (.string (String.mk acc)) s1
          | some c =>
              if c = '\\' then lexStringLoop fuel (nextChar s1) (acc ++ ['\\'])
              else if c = '"' then lexStringLoop fuel (nextChar s1) (acc ++ ['"'])
              else if c = 't' then lexStringLoop fuel (nextChar s1) (acc ++ ['\t'])
              else if c = 'n' then lexStringLoop fuel (nextChar s1) (acc ++ ['\n'])
              else if c = 'r' then lexStringLoop fuel (nextChar s1) (acc ++ ['\r'])
              else .panicked
      | some c => lexStringLoop fuel (nextChar s) (acc ++ [c])

/-- Keyword table of `Lexer::new`. -/
def keywordOrIdent (s : String) : Token :=
  if s = "lambda" || s = "λ" then .keyword .lambdaK
  else if s = "let" then .keyword .letK
  else if s = "def" then .keyword .defK
  else if s = "cond" then .keyword .condK
  else .identifier s

/-- Identifier-continuation loop of `lex_identifier_or_keyword`. -/
def lexIdentLoop : Nat → LexState → List Char → Option (List Char × LexState)
  | 0, _, _ => none
  | fuel + 1, s, acc =>
      match peekChar s with
      | some c =>
          if isIdChar c then lexIdentLoop fuel (nextChar s) (acc ++ [c])
          else some (acc, s)
      | none => some (acc, s)

/-- Model of `lex_identifier_or_keyword`: the first character must be an
identifier start (else the sources panic); continue with identifier
characters and resolve keywords. -/
def lexIdentOrKeyword (fuel : Nat) (s : LexState) : LexOut :=
  match peekChar s with
  | some c =>
      if isIdStart c then
        match lexIdentLoop fuel (nextChar s) [c] with
        | some (chars, s') => .tok (keywordOrIdent (String.mk chars)) s'
        | none => .fuelOut
      else .panicked
  | none => .tok (keywordOrIdent "") s

/-- Digit-collection loop of `lex_integer`. -/
def lexIntLoop : Nat → LexState → List Char → Option (List Char × LexState)
  | 0, _, _ => none
  | fuel + 1, s, acc =>
      match peekChar s with
      | some c =>
          if c.isDigit then lexIntLoop fuel (nextChar s) (acc ++ [c])
          else some (acc, s)
      | none => some (acc, s)

/-- Decimal value of a digit list. -/
def digitsToInt (l : List Char) : Int :=
  l.foldl (fun a c => a * 10 + (c.toNat - '0'.toNat : Nat)) 0

/-- Model of `lex_integer`: optional sign, then digits;
`num_str.parse::<i64>().unwrap()` panics when there are no digits or the
value does not fit in `i64`. -/
def lexInteger (fuel : Nat) (s : LexState) : LexOut :=
  let signed : Bool × LexState :=
    match peekChar s with
    | some '+' => (false, nextChar s)
    | some '-' => (true, nextChar s)
    | _ => (false, s)
  match lexIntLoop fuel signed.2 [] with
  | none => .fuelOut
  | some (digits, s2) =>
      if digits.isEmpty then .panicked
      else
        let v : Int := if signed.1 then -(digitsToInt digits) else digitsToInt digits
        if i64Range v then .tok (.integer v) s2 else .panicked

/-- Model of `Lexer::next_token`: skip whitespace and comments, then
dispatch on the next character.  In the arrow case the sources replace
`self.input` with the cloned iterator without touching `current_location`,
so the location counter is not advanced over the two arrow characters. -/
def nextToken : Nat → LexState → LexOut
  | 0, _ => .fuelOut
  | fuel + 1, s =>
      match skipWC fuel s with
      | none => .fuelOut
      | some s1 =>
          match peekChar s1 with
          | none => .tok .eof s1
          | some '"' => lexStringLoop fuel (nextChar s1) []
          | some '(' => .tok .openParen (nextChar s1)
          | some ')' => .tok .closeParen (nextChar s1)
          | some '\x7b' => .tok .openBrace (nextChar s1)
          | some '\x7d' => .tok .closeBrace (nextChar s1)
          | some ',' => .tok .comma (nextChar s1)
          | some ';' => .tok .semicolon (nextChar s1)
          | some '=' =>
              match s1.rest with
              | '=' :: '>' :: tl => .tok .arrow { s1 with rest := tl }
              | _ => lexIdentOrKeyword fuel s1
          | some c =>
              if isIdStart c then lexIdentOrKeyword fuel s1
              else if c.isDigit || c = '+' || c = '-' then lexInteger fuel s1
              else
                .tok .error
                  (nextChar { s1 with errors := s1.errors ++ [(s1.currentLocation, 1)] })

/-- Outcome of lexing one token container. -/
inductive LexOutC where
  | tok (t : TokenC) (s : LexState)
  | panicked
  | fuelOut
deriving DecidableEq

/-- Model of `next_token_container`: the `source` field is evaluated first,
so it records `current_location` before the whitespace skipping inside
`next_token` runs. -/
def nextTokenContainer (fuel : Nat) (s : LexState) : LexOutC :=
  let src := s.currentLocation
  match nextToken fuel s with
  | .tok t s' => .tok ⟨t, src⟩ s'
  | .panicked => .panicked
  | .fuelOut => .fuelOut

/-- The token-collection loop of `parse` in `src/parser/src/lib.rs`:
container tokens up to and including the end-of-input token. -/
def lexAll : Nat → LexState → Option (List TokenC)
  | 0, _ => none
  | fuel + 1, s =>
      match nextTokenContainer fuel s with
      | .tok t s' =>
          if t.token = .eof then some [t]
          else (lexAll fuel s').map (t :: ·)
      | _ => none

/-- Error classification of the parser (`ParseErrorType`). -/
inductive ParseErrorType where
  | BLOCK | LET | UNEXPECTED
deriving DecidableEq

/-- Parser diagnostic (`ParseError` in `src/parser/src/error.rs`): source
name and text, a label, a classification, a primary span
(offset, length), secondary labelled spans (`LabeledSpan::at`) and an
optional help string. -/
structure ParseError where
  srcName : String
  src : String
  label : String
  errorType : ParseErrorType
  mainSpan : Nat × Nat
  otherSpans : List (Nat × String)
  help : Option String
deriving DecidableEq

/-- Model of `ParseError::new`. -/
def ParseError.new (errorType : ParseErrorType) (srcName src : String)
    (span : Nat × Nat) (label : String) : ParseError :=
  ⟨srcName, src, label, errorType, span, [], none⟩

/-- Model of `ParseError::new_full`. -/
def ParseError.newFull (errorType : ParseErrorType) (srcName src : String)
    (span : Nat × Nat) (label : String) (help : Option String)
    (otherSpans : List (Nat × String)) : ParseError :=
  ⟨srcName, src, label, errorType, span, otherSpans, help⟩

/-- Parser state (`Parser` in `src/parser/src/parser.rs`): the token slice,
the cursor, and the source name and text used when constructing errors.
Parsing always runs over `TokenContainer`s (as `lib.rs` does), so the
trait's `source()` is always `Some`; an index out of range is a panic. -/
structure PState where
  tokens : List TokenC
  current : Nat
  sourceName : String
  source : String
deriving DecidableEq

/-- Model of `current_token`; `none` is an index panic. -/
def currentToken (p : PState) : Option Token :=
  (p.tokens[p.current]?).map (·.token)

/-- Model of `current_source`; `none` is an index panic. -/
def currentSource (p : PState) : Option Nat :=
  (p.tokens[p.current]?).map (·.source)

/-- Model of `next_token` on the parser (cursor advance). -/
def pAdvance (p : PState) : PState := { p with current := p.current + 1 }

/-- Model of `consume`: `none` is an index panic, otherwise whether the
token matched (advancing on a match). -/
def consume (p : PState) (t : Token) : Option (Bool × PState) :=
  match p.tokens[p.current]? with
  | none => none
  | some tc => if tc.token = t then some (true, pAdvance p) else some (false, p)

/-- Outcome of a parser production: a JSON value and successor state, an
error together with the state at which parsing stopped, a Rust panic, or
fuel exhaustion of the embedding. -/
inductive POut where
  | ok (v : Json) (p : PState)
  | err (e : ParseError) (p : PState)
  | panicked
  | fuelOut

mutual

/-- Model of `parse_exp`: dispatch on the current token; a token that
cannot start an expression yields a missing-block (`BLOCK`) error labelled
"Expected expression".  Afterwards the sources inspect the current token
again (also when the sub-parse failed): an opening parenthesis turns the
result into an application head, with `expr?` propagating an inner error
before `parse_application` is entered. -/
def parseExp : Nat → PState → POut
  | 0, _ => .fuelOut
  | fuel + 1, p =>
      match currentToken p with
      | none => .panicked
      | some t =>
          let step : POut :=
            match t with
            | .identifier _ => parseAtom fuel p
            | .integer _ => parseAtom fuel p
            | .string _ => parseAtom fuel p
            | .keyword _ => parseForm fuel p
            | .openBrace => parseBlock fuel p
            | _ =>
                match currentSource p with
                | some cs =>
                    .err (ParseError.new .BLOCK p.sourceName p.source (cs, 1)
                      "Expected expression") p
                | none => .panicked
          match step with
          | .ok v p' =>
              match currentToken p' with
              | none => .panicked
              | some .openParen => parseApplication fuel v p'
              | some _ => .ok v p'
          | .err e p' =>
              match currentToken p' with
              | none => .panicked
              | some _ => .err e p'
          | other => other

/-- Model of `parse_form`: keyword dispatch; any other token panics. -/
def parseForm : Nat → PState → POut
  | 0, _ => .fuelOut
  | fuel + 1, p =>
      match currentToken p with
      | none => .panicked
      | some (.keyword .defK) => parseDefinition fuel p
      | some (.keyword .letK) => parseLet fuel p
      | some (.keyword .lambdaK) => parseLambda fuel p
      | some (.keyword .condK) => parseCond fuel p
      | some _ => .panicked

/-- Model of `parse_atom`: identifiers go through assignment resolution;
integer and string literals become JSON leaves; any other token panics. -/
def parseAtom : Nat → PState → POut
  | 0, _ => .fuelOut
  | fuel + 1, p =>
      match currentToken p with
      | none => .panicked
      | some (.identifier _) => parseAssignment fuel p
      | some (.integer n) => .ok (.num n) (pAdvance p)
      | some (.string s) => .ok (.str s) (pAdvance p)
      | some _ => .panicked

/-- Model of `parse_application`: consume `(`, then either an immediate
`)` or an argument loop. -/
def parseApplication : Nat → Json → PState → POut
  | 0, _, _ => .fuelOut
  | fuel + 1, func, p =>
      match consume p .openParen with
      | none => .panicked
      | some (_, p1) =>
          match consume p1 .closeParen with
          | none => .panicked
          | some (true, p2) => .ok (.obj [("Application", .arr [func])]) p2
          | some (false, p2) => parseArgsLoop fuel [func] p2

/-- The argument loop of `parse_application`: expressions separated by
optional commas until a closing parenthesis. -/
def parseArgsLoop : Nat → List Json → PState → POut
  | 0, _, _ => .fuelOut
  | fuel + 1, args, p =>
      match parseExp fuel p with
      | .ok a p1 =>
          let args' := args ++ [a]
          match consume p1 .closeParen with
          | none => .panicked
          | some (true, p2) => .ok (.obj [("Application", .arr args')]) p2
          | some (false, p2) =>
              match consume p2 .comma with
              | none => .panicked
              | some (_, p3) => parseArgsLoop fuel args' p3
      | other => other

/-- Model of `parse_lambda`: consume the keyword, `(`, parameters, `)`,
then a block. -/
def parseLambda : Nat → PState → POut
  | 0, _ => .fuelOut
  | fuel + 1, p =>
      let p1 := pAdvance p
      match consume p1 .openParen with
      | none => .panicked
      | some (_, p2) =>
          match parseParamsLoop fuel [] p2 with
          | .ok params p3 =>
              match consume p3 .closeParen with
              | none => .panicked
              | some (_, p4) =>
                  match parseBlock fuel p4 with
                  | .ok block p5 => .ok (.obj [("Lambda", .arr [params, block])]) p5
                  | other => other
          | other => other

/-- Model of `parse_parameters`: identifiers separated by commas; stops at
the first non-identifier. -/
def parseParamsLoop : Nat → List Json → PState → POut
  | 0, _, _ => .fuelOut
  | fuel + 1, acc, p =>
      match currentToken p with
      | none => .panicked
      | some (.identifier name) =>
          let acc' := acc ++ [Json.obj [("Identifier", .str name)]]
          let p1 := pAdvance p
          match consume p1 .comma with
          | none => .panicked
          | some (true, p2) => parseParamsLoop fuel acc' p2
          | some (false, p2) => .ok (.obj [("Parameters", .arr acc')]) p2
      | some _ => .ok (.obj [("Parameters", .arr acc)]) p

/-- Model of `parse_cond`: consume `cond`, then clauses while the current
token is an opening parenthesis. -/
def parseCond : Nat → PState → POut
  | 0, _ => .fuelOut
  | fuel + 1, p => parseCondLoop fuel [] (pAdvance p)

/-- The clause loop of `parse_cond`. -/
def parseCondLoop : Nat → List Json → PState → POut
  | 0, _, _ => .fuelOut
  | fuel + 1, acc, p =>
      match currentToken p with
      | none => .panicked
      | some .openParen =>
          match parseClause fuel p with
          | .ok c p' => parseCondLoop fuel (acc ++ [c]) p'
          | other => other
      | some _ => .ok (.obj [("Cond", .arr acc)]) p

/-- Model of `parse_clause`: `(` expression `=>` expression `)`. -/
def parseClause : Nat → PState → POut
  | 0, _ => .fuelOut
  | fuel + 1, p =>
      match consume p .openParen with
      | none => .panicked
      | some (_, p1) =>
          match parseExp fuel p1 with
          | .ok condition p2 =>
              match consume p2 .arrow with
              | none => .panicked
              | some (_, p3) =>
                  match parseExp fuel p3 with
                  | .ok result p4 =>
                      match consume p4 .closeParen with
                      | none => .panicked
                      | some (_, p5) =>
                          .ok (.obj [("Clause", .arr [condition, result])]) p5
                  | other => other
          | other => other

/-- Model of `parse_block`: record the source offset of the current token,
require `{` (else a `BLOCK` error "Expected a block" with help "Create a
block with enclosing braces"), then run the expression loop. -/
def parseBlock : Nat → PState → POut
  | 0, _ => .fuelOut
  | fuel + 1, p =>
      match p.tokens[p.current]? with
      | none => .panicked
      | some tc =>
          let cs := tc.source
          match consume p .openBrace with
          | none => .panicked
          | some (false, p1) =>
              .err (ParseError.newFull .BLOCK p.sourceName p.source (cs, 1)
                "Expected a block" (some "Create a block with enclosing braces") []) p1
          | some (true, p1) => parseBlockLoop fuel cs [] p1

/-- The expression loop of `parse_block`: expressions (with optional
semicolons) until a closing brace.  An error whose classification is
missing-block (`BLOCK`) is decorated on the way out: its label becomes
"Found end of block", a secondary span at the opening brace labelled
"Found opening '\x7b' here" is appended, and the help is set to
"Close the block with a '\x7d'". -/
def parseBlockLoop : Nat → Nat → List Json → PState → POut
  | 0, _, _, _ => .fuelOut
  | fuel + 1, cs, exps, p =>
      match consume p .closeBrace with
      | none => .panicked
      | some (true, p1) => .ok (.obj [("Block", .arr exps)]) p1
      | some (false, p1) =>
          match parseExp fuel p1 with
          | .ok e p2 =>
              match consume p2 .semicolon with
              | none => .panicked
              | some (_, p3) => parseBlockLoop fuel cs (exps ++ [e]) p3
          | .err e p2 =>
              if e.errorType = .BLOCK then
                .err { e with
                        label := "Found end of block"
                      , otherSpans := e.otherSpans ++ [(cs, "Found opening '\x7b' here")]
                      , help := some "Close the block with a '\x7d'" } p2
              else .err e p2
          | .panicked => .panicked
          | .fuelOut => .fuelOut

/-- Model of `parse_let`: `let`, an identifier, `=` (else a `LET` error
"Expected an '='"), then the bound expression. -/
def parseLet : Nat → PState → POut
  | 0, _ => .fuelOut
  | fuel + 1, p =>
      match consume p (.keyword .letK) with
      | none => .panicked
      | some (_, p1) =>
          match parseIdentifier fuel p1 with
          | .ok ident p2 =>
              match consume p2 .equals with
              | none => .panicked
              | some (true, p3) =>
                  match parseExp fuel p3 with
                  | .ok exp p4 => .ok (.obj [("Let", .arr [ident, exp])]) p4
                  | other => other
              | some (false, p3) =>
                  match currentSource p3 with
                  | none => .panicked
                  | some cs =>
                      .err (ParseError.newFull .LET p3.sourceName p3.source (cs + 1, 1)
                        "Expected an '='" (some "Let expression has form 'let x = 5'") []) p3
          | other => other

/-- Model of `parse_definition`: `def`, an atom, then the body expression. -/
def parseDefinition : Nat → PState → POut
  | 0, _ => .fuelOut
  | fuel + 1, p =>
      match consume p (.keyword .defK) with
      | none => .panicked
      | some (_, p1) =>
          match parseAtom fuel p1 with
          | .ok name p2 =>
              match parseExp fuel p2 with
              | .ok body p3 => .ok (.obj [("Def", .arr [name, body])]) p3
              | other => other
          | other => other

/-- Model of `parse_identifier`: an identifier token, else an `UNEXPECTED`
error "Expected an identifier". -/
def parseIdentifier : Nat → PState → POut
  | 0, _ => .fuelOut
  | _ + 1, p =>
      match currentToken p with
      | none => .panicked
      | some (.identifier name) => .ok (.obj [("Identifier", .str name)]) (pAdvance p)
      | some _ =>
          match currentSource p with
          | none => .panicked
          | some cs =>
              .err (ParseError.newFull .UNEXPECTED p.sourceName p.source (cs, 2)
                "Expected an identifier"
                (some "A valid identifier starts with a valid unicode character, but not a digit, '+' or '-'.") []) p

/-- Model of `parse_assignment`: an identifier, optionally followed by `=`
and a body. -/
def parseAssignment : Nat → PState → POut
  | 0, _ => .fuelOut
  | fuel + 1, p =>
      match parseIdentifier fuel p with
      | .ok ident p1 =>
          match consume p1 .equals with
          | none => .panicked
          | some (true, p2) =>
              match parseExp fuel p2 with
              | .ok body p3 => .ok (.obj [("Assignment", .arr [ident, body])]) p3
              | other => other
          | some (false, p2) => .ok ident p2
      | other => other

end

/-! ## Reference definitions written from the specification's words -/

/-- Extract the condition/result pair of a well-formed `Cond` clause: an
object whose `Clause` key holds a two-element array. -/
def clauseParts (st : Json) : Option (Json × Json) :=
  match st.getKey "Clause" with
  | some (.arr [c, r]) => some (c, r)
  | _ => none

/-- Reference behaviour of `Cond`, written from the specification's words:
iterate the clauses in order; evaluate each clause's condition, which must
be boolean (otherwise a type error); on the first clause whose condition is
true, evaluate and return its result expression; if no clause matches,
return boolean `false`.  The evaluator for constituent expressions is a
parameter, with the embedding's fuel threaded through exactly as the
evaluator consumes it. -/
def condSpec (ev : Nat → Json → Interpreter → Res × Interpreter) :
    Nat → List (Json × Json) → Interpreter → Res × Interpreter
  | 0, _, I => (.timeout, I)
  | _ + 1, [], I => (.ok (.boolean false), I)
  | fuel + 1, (c, r) :: rest, I =>
      match ev fuel c I with
      | (.ok (.boolean true), I') => ev fuel r I'
      | (.ok (.boolean false), I') => condSpec ev fuel rest I'
      | (.ok v, I') => (.err (.typeError "bool" v.display), I')
      | (out, I') => (out, I')

/-- The name shown when a function value is displayed. -/
def Func.fname : Func → String
  | .core n _ => n
  | .user n _ _ _ => n

/-- Helper: the display forms of a list's elements are the mapped display
forms. -/
theorem displayList_eq_map (l : List Expr) :
    Expr.displayList l = l.map Expr.display := by
  induction l with
  | nil => rfl
  | cons e rest ih => rw [Expr.displayList, List.map_cons, ih]

/-! ## Concrete programs used by the claim theorems -/

/-- JSON for an `Identifier` node. -/
def identJ (s : String) : Json := .obj [("Identifier", .str s)]

/-- The wire-format AST of `\x7b def x 1; def f λ() \x7b x \x7d; def x 2; f() \x7d`. -/
def astScopeProgram : Json :=
  .obj [("Block", .arr
    [ .obj [("Def", .arr [identJ "x", .num 1])]
    , .obj [("Def", .arr [identJ "f",
        .obj [("Lambda", .arr
          [ .obj [("Parameters", .arr [])]
          , .obj [("Block", .arr [identJ "x"])]])]])]
    , .obj [("Def", .arr [identJ "x", .num 2])]
    , .obj [("Application", .arr [identJ "f"])]
    ])]

/-- A block whose single expression is an unbound identifier. -/
def astFailingBlock : Json := .obj [("Block", .arr [identJ "nosuch"])]

/-- Two well-formed `Cond` clauses: `(false => 1) (true => 5)`. -/
def c3clauses : List Json :=
  [ .obj [("Clause", .arr [.bool false, .num 1])]
  , .obj [("Clause", .arr [.bool true, .num 5])] ]

/-- Token stream of `\x7b 5 ` (no closing brace), with recorded offsets. -/
def c6state : PState :=
  ⟨[⟨.openBrace, 0⟩, ⟨.integer 5, 2⟩, ⟨.eof, 4⟩], 0, "input", "\x7b 5 "⟩

/-- The diagnostic produced for `c6state`. -/
def c6err : ParseError :=
  ⟨"input", "\x7b 5 ", "Found end of block", .BLOCK, (4, 1),
   [(0, "Found opening '\x7b' here")], some "Close the block with a '\x7d'"⟩

/-- The parser state at which parsing of `c6state` stopped. -/
def c6stateAfter : PState :=
  ⟨[⟨.openBrace, 0⟩, ⟨.integer 5, 2⟩, ⟨.eof, 4⟩], 2, "input", "\x7b 5 "⟩

/-! ## Supporting lemmas -/

/-- A successful clause extraction determines the `Clause` key. -/
theorem clauseParts_eq_some {st c r : Json} (h : clauseParts st = some (c, r)) :
    st.getKey "Clause" = some (.arr [c, r]) := by
  unfold clauseParts at h
  split at h
  · next c' r' heq =>
      injection h with h2
      cases h2
      exact heq
  · simp at h

/-- Every missing-block-classified error that leaves the block-expression
loop has been decorated: its label is "Found end of block", its help is
set, and a secondary span at the recorded opening-brace offset has been
appended. -/
theorem parseBlockLoop_block_err :
    ∀ (fuel cs : Nat) (exps : List Json) (p : PState) (e : ParseError) (p' : PState),
      parseBlockLoop fuel cs exps p = .err e p' →
      e.errorType = .BLOCK →
      e.label = "Found end of block" ∧
      e.help = some "Close the block with a '\x7d'" ∧
      (cs, "Found opening '\x7b' here") ∈ e.otherSpans := by
  intro fuel
  induction fuel with
  | zero =>
      intro cs exps p e p' h _
      simp [parseBlockLoop] at h
  | succ fuel ih =>
      intro cs exps p e p' h hty
      rw [parseBlockLoop] at h
      split at h
      · cases h
      · cases h
      · split at h
        · split at h
          · cases h
          · exact ih cs _ _ e p' h hty
        · split at h
          · cases h
            refine ⟨rfl, rfl, ?_⟩
            exact List.mem_append_right _ (List.mem_singleton.mpr rfl)
          · next hneq =>
              cases h
              exact absurd hty hneq
        · cases h
        · cases h

/-- The inner comment loop of the lexer never finishes when the remaining
input contains no newline, whatever the fuel: `peek_char() != Some('\n')`
stays true forever because a drained iterator keeps yielding `None`. -/
theorem skipLineThen_none :
    ∀ (fuel : Nat) (s : LexState), '\n' ∉ s.rest → skipLineThen fuel s = none := by
  intro fuel
  induction fuel with
  | zero => intro s _; rfl
  | succ fuel ih =>
      intro s h
      have hne : ¬ peekChar s = some '\n' := by
        intro heq
        apply h
        unfold peekChar at heq
        cases hr : s.rest with
        | nil => rw [hr] at heq; simp at heq
        | cons a t =>
            rw [hr] at heq
            simp at heq
            rw [heq]
            exact List.mem_cons_self _ _
      rw [skipLineThen, if_neg hne]
      exact ih (nextChar s) (fun hm => h (List.mem_of_mem_tail hm))

/-! ## Claim theorems -/

/-- C1: the claim states that `\x7b def x 1; def f λ() \x7b x \x7d; def x 2; f() \x7d`
evaluates to the integer 1 under lexical scope and 2 under dynamic scope.
On the code both scope modes yield the integer 2: the lambda's captured
frame is a blank child of the block frame, so the later `def x 2`, which
overwrites `x` in that shared block frame, is visible through the captured
chain when `f()` runs. -/
theorem c1_scope_example_evaluates_to_two :
    (evalJson 1000 astScopeProgram (Interpreter.new true false)).1 = .ok (.integer 2) ∧
    (evalJson 1000 astScopeProgram (Interpreter.new false false)).1 = .ok (.integer 2) :=
  ⟨rfl, rfl⟩

/-- C2: the claim states the current local-frame handle is restored on
every exit path, including errors.  Evaluating the block
`\x7b nosuch \x7d` from the root frame (handle 0) returns an undefined-symbol
error and leaves the interpreter pointing at the freshly pushed child
frame (handle 1): the `?` operator in `interpret_block` returns before the
restore statement runs. -/
theorem c2_failed_block_keeps_child_frame :
    (Interpreter.new true false).cur = 0 ∧
    (evalJson 30 astFailingBlock (Interpreter.new true false)).1 =
      .err (.undefinedError "nosuch") ∧
    (evalJson 30 astFailingBlock (Interpreter.new true false)).2.cur = 1 :=
  ⟨rfl, rfl, rfl⟩

/-- C3: on well-formed clause lists (each clause an object whose `Clause`
key holds a condition/result pair), the interpreter's `Cond` loop equals
the specification's behaviour: conditions are tested in source order and
must be boolean (otherwise a type error), only the first true clause's
result expression is evaluated and returned, and boolean `false` results
when no clause matches. -/
theorem c3_cond_refines_spec :
    ∀ (fuel : Nat) (clauses : List Json) (I : Interpreter),
      (∀ st ∈ clauses, (clauseParts st).isSome) →
      interpretCond fuel clauses I =
        condSpec evalJson fuel
          (clauses.map fun st => (clauseParts st).getD (.null, .null)) I := by
  intro fuel
  induction fuel with
  | zero => intro clauses I _; rfl
  | succ fuel ih =>
      intro clauses I h
      match clauses with
      | [] => rfl
      | st :: rest =>
          have hst := h st (List.mem_cons_self st rest)
          obtain ⟨⟨c, r⟩, hcr⟩ := Option.isSome_iff_exists.mp hst
          have hkey := clauseParts_eq_some hcr
          have hrest : ∀ s ∈ rest, (clauseParts s).isSome :=
            fun s hs => h s (List.mem_cons_of_mem st hs)
          rw [List.map_cons, hcr, Option.getD_some]
          rw [interpretCond, hkey]
          rw [condSpec]
          dsimp only
          rcases evalJson fuel c I with ⟨res, I'⟩
          match res with
          | .ok (.boolean true) => rfl
          | .ok (.boolean false) => exact ih rest I' hrest
          | .ok (.integer i) => rfl
          | .ok (.string s) => rfl
          | .ok (.list l) => rfl
          | .ok (.function f) => rfl
          | .err e => rfl
          | .panicked => rfl
          | .timeout => rfl

/-- Witness for C3 at the concrete clause list `(false => 1) (true => 5)`
against the default interpreter. -/
theorem c3_cond_refines_spec_witness :
    (∀ st ∈ c3clauses, (clauseParts st).isSome) ∧
    interpretCond 10 c3clauses (Interpreter.new true false) =
      condSpec evalJson 10
        (c3clauses.map fun st => (clauseParts st).getD (.null, .null))
        (Interpreter.new true false) :=
  ⟨by intro st hst; fin_cases hst <;> rfl,
   c3_cond_refines_spec 10 c3clauses (Interpreter.new true false)
     (by intro st hst; fin_cases hst <;> rfl)⟩

/-- C4: the claim states `set` with three arguments returns the updated
copy and any other count yields an argument-count error.  The source's
guard tests `args.len() != 2`, so the documented three-argument call is
rejected with the argument error, and a two-argument call that passes the
guard panics at the unchecked `args[2]`. -/
theorem c4_set_arity_check_is_wrong (g : Environment) :
    setFn [.list [.integer 1], .integer 0, .integer 2] g =
      (.err (.argumentError "set" 3 3), g) ∧
    setFn [.list [.integer 1], .integer 0] g = (.panicked, g) :=
  ⟨rfl, rfl⟩

/-- C5: the claim states arity mismatches yield structured errors naming
the built-in; in the sources `zero?`, `length` and `to_uppercase` index
`args[0]` without a length check and panic on an empty argument list. -/
theorem c5_zero_arg_builtins_panic (g : Environment) :
    zeroFn [] g = (.panicked, g) ∧
    lengthFn [] g = (.panicked, g) ∧
    toUppercaseFn [] g = (.panicked, g) :=
  ⟨rfl, rfl, rfl⟩

/-- C6: when `parse_block` has consumed an opening brace recorded at
offset `o` and returns an error classified as missing-block, that
diagnostic carries primary label "Found end of block", a secondary span at
`o` labelled "Found opening '\x7b' here", and help
"Close the block with a '\x7d'". -/
theorem c6_block_end_error_decorated (fuel : Nat) (p : PState) (o : Nat)
    (e : ParseError) (p' : PState)
    (htok : p.tokens[p.current]? = some ⟨.openBrace, o⟩)
    (herr : parseBlock fuel p = .err e p')
    (hty : e.errorType = .BLOCK) :
    e.label = "Found end of block" ∧
    e.help = some "Close the block with a '\x7d'" ∧
    (o, "Found opening '\x7b' here") ∈ e.otherSpans := by
  match fuel with
  | 0 => simp [parseBlock] at herr
  | fuel + 1 =>
      rw [parseBlock, htok] at herr
      have hcons : consume p .openBrace = some (true, pAdvance p) := by
        simp [consume, htok]
      rw [hcons] at herr
      exact parseBlockLoop_block_err fuel o [] (pAdvance p) e p' herr hty

/-- Witness for C6 on the token stream of `\x7b 5 ` (no closing brace). -/
theorem c6_block_end_error_decorated_witness :
    c6state.tokens[c6state.current]? = some ⟨.openBrace, 0⟩ ∧
    parseBlock 20 c6state = .err c6err c6stateAfter ∧
    c6err.errorType = .BLOCK ∧
    (c6err.label = "Found end of block" ∧
     c6err.help = some "Close the block with a '\x7d'" ∧
     (0, "Found opening '\x7b' here") ∈ c6err.otherSpans) :=
  ⟨rfl, rfl, rfl,
   c6_block_end_error_decorated 20 c6state 0 c6err c6stateAfter rfl rfl rfl⟩

/-- C7: the claim states every token carries the byte offset at which it
began, in particular after an arrow.  Lexing `=> x` yields the identifier
token `x` carrying offset 0 although the identifier begins at byte 3 (the
arrow branch replaces the iterator without advancing `current_location`,
and the container records the location before whitespace skipping). -/
theorem c7_token_offsets_wrong_after_arrow :
    lexAll 100 (lexInit "=> x") =
      some [⟨.arrow, 0⟩, ⟨.identifier "x", 0⟩, ⟨.eof, 2⟩] ∧
    "=> x".toList.drop 3 = ['x'] :=
  ⟨rfl, rfl⟩

/-- C8: the claim states token iteration terminates for every finite
source.  For the source `//abc` (a line comment with no trailing newline)
`next_token` never returns: the comment loop waits for a `'\n'` that never
arrives, so the fuelled embedding exhausts any amount of fuel. -/
theorem c8_comment_without_newline_diverges :
    ∀ fuel : Nat, nextToken fuel (lexInit "//abc") = .fuelOut := by
  intro fuel
  match fuel with
  | 0 => rfl
  | fuel + 1 =>
      have h : skipWC fuel (lexInit "//abc") = none := by
        match fuel with
        | 0 => rfl
        | f + 1 =>
            have hstep : skipWC (f + 1) (lexInit "//abc") =
                skipLineThen f (lexInit "//abc") := rfl
            rw [hstep]
            exact skipLineThen_none f _ (by decide)
      simp [nextToken, h]

/-- C9 counterexample: the display form of the list `[1, 2]` is not the
bracketed text `"[1, 2]"` claimed by the spec: the sources join the
element display forms with comma-space and add no brackets. -/
theorem c9_list_display_no_brackets :
    Expr.display (.list [.integer 1, .integer 2]) ≠ "[1, 2]" := by
  decide

/-- C9 as amended: integers display as decimal digits, booleans as
`true`/`false`, strings as their raw contents, functions as
`function: <name>`, and a list value displays as the display forms of its
elements separated by comma-space with no enclosing brackets. -/
theorem c9_display_forms :
    (∀ i, Expr.display (.integer i) = toString i) ∧
    (∀ b, Expr.display (.boolean b) = if b then "true" else "false") ∧
    (∀ s, Expr.display (.string s) = s) ∧
    (∀ l, Expr.display (.list l) =
        String.intercalate ", " (l.map Expr.display)) ∧
    (∀ f, Expr.display (.function f) = "function: " ++ f.fname) := by
  refine ⟨fun i => rfl, fun b => rfl, fun s => rfl, fun l => ?_, fun f => ?_⟩
  · rw [Expr.display, displayList_eq_map]
  · cases f <;> rfl

/-- C10: `print`, `println` and `dbg` evaluate to boolean `true` for every
argument list and in both output modes (the global state is threaded
unchanged apart from the captured output). -/
theorem c10_output_builtins_return_true (args : List Expr) (g : Environment) :
    (printFn args g).1 = .ok (.boolean true) ∧
    (printlnFn args g).1 = .ok (.boolean true) ∧
    (dbgFn args g).1 = .ok (.boolean true) :=
  ⟨rfl, rfl, rfl⟩

end Lang
